import Mathlib

/-!
Verification of the client-side mail synchronization engine of the crew-mail
repository: the entity mapper (`src/lib/email-utils.ts`), the folder view
derivation and local mutations (`src/components/email-client.tsx`), the list
search/sort (`email-list`), the API hook (`use-email-api`), the agent draft
projection, and the sender-enrichment poller (`sender-profile`).

The TypeScript code is embedded shallowly: JavaScript strings are Lean
`String` (a wrapper around `List Char`); JS falsy-string defaulting
(`a || b`), `trim`, `toLowerCase`, `split`, `includes` and the sender regex
are modelled by executable Lean functions defined below, each next to a note
naming the JS operation it embeds.  React state is explicit record state.
-/

/-! ## JS string primitives -/

/-- JS whitespace class `\s` restricted to the ASCII characters that occur in
mail headers (space, tab, CR, LF); used by `trim` and by the regex `\s*`. -/
def jsWs (c : Char) : Bool :=
  c == ' ' || c == '\t' || c == '\n' || c == '\r'

/-- Drop the maximal trailing run of whitespace (the part a trailing `\s*`
absorbs, and the right half of `String.prototype.trim`). -/
def stripTrailWs (cs : List Char) : List Char :=
  (cs.reverse.dropWhile jsWs).reverse

/-- `String.prototype.trim`. -/
def jsTrim (s : String) : String :=
  ⟨stripTrailWs (s.data.dropWhile jsWs)⟩

/-- `String.prototype.toLowerCase` (ASCII). -/
def jsToLower (s : String) : String :=
  ⟨s.data.map Char.toLower⟩

/-- JS `a || b` on strings: the empty string is falsy. -/
def jsOr (a b : String) : String :=
  if a = "" then b else a

/-- `s.split(sep)[0]`: the segment before the first occurrence of `sep`;
the whole string when `sep` does not occur. -/
def splitFirst (sep : Char) (cs : List Char) : List Char :=
  cs.takeWhile (fun c => c != sep)

/-- `s.split(sep)[1]`: the segment between the first and second occurrence of
`sep`; `none` (JS `undefined`) when `sep` does not occur. -/
def splitSecond (sep : Char) (cs : List Char) : Option (List Char) :=
  match cs.dropWhile (fun c => c != sep) with
  | [] => none
  | _ :: rest => some (rest.takeWhile (fun c => c != sep))

/-- Boolean prefix test on character lists. -/
def prefixList : List Char → List Char → Bool
  | [], _ => true
  | _ :: _, [] => false
  | a :: as, b :: bs => a == b && prefixList as bs

/-- `hay.includes(needle)`: contiguous-substring test. -/
def containsSub : List Char → List Char → Bool
  | [], needle => needle.isEmpty
  | h :: t, needle => prefixList needle (h :: t) || containsSub t needle

/-! ## The sender regex

`email-utils.ts` parses sender/recipient strings with
`raw.match(/^(.*?)\s*<(.+)>$/)`.  Operationally (lazy prefix, backtracking):
the match succeeds iff the string ends in `>` and contains a `<` leaving at
least one character before that final `>`; the match uses the leftmost such
`<`; group 1 is the prefix before the whitespace run preceding that `<`;
group 2 is everything strictly between the `<` and the final `>`.  JS `.`
does not match CR/LF, so a match additionally requires both groups to be
free of CR/LF. -/

/-- Both capture groups are matched by `.`, which excludes CR and LF. -/
def dotOk (cs : List Char) : Bool :=
  !(cs.any (fun c => c == '\n' || c == '\r'))

/-- Whether the `<` at index `j` of `cs` can serve as the bracket of a full
match of `^(.*?)\s*<(.+)>$` (the final `>` is checked separately). -/
def viableLt (cs : List Char) (j : Nat) : Bool :=
  cs.getD j ' ' == '<' && decide (j + 3 ≤ cs.length)
    && dotOk (stripTrailWs (cs.take j))
    && dotOk ((cs.drop (j + 1)).take (cs.length - j - 2))

/-- Index scan for the leftmost viable `<`: examine `i, i+1, ...` while
`fuel` lasts. -/
def findViableFrom (cs : List Char) : Nat → Nat → Option Nat
  | 0, _ => none
  | fuel + 1, i => if viableLt cs i then some i else findViableFrom cs fuel (i + 1)

/-- `raw.match(/^(.*?)\s*<(.+)>$/)`: `some (group1, group2)` on a match,
`none` otherwise. -/
def angleSplit (raw : String) : Option (String × String) :=
  if raw.data.getLast? == some '>' then
    match findViableFrom raw.data raw.data.length 0 with
    | some j => some (⟨stripTrailWs (raw.data.take j)⟩,
        ⟨(raw.data.drop (j + 1)).take (raw.data.length - j - 2)⟩)
    | none => none
  else none

/-- The name/address extraction of `transformApiEmailToEmail`:
`match = raw.match(regex) || [null, raw, raw]`, then
`name = match[1]?.trim() || raw.split('@')[0] || dflt` and
`email = match[2]?.trim() || raw` (`dflt` is `'Unknown'` for senders,
`'You'` for recipients). -/
def parseNameAddr (raw : String) (dflt : String) : String × String :=
  match angleSplit raw with
  | some (g1, g2) =>
      (jsOr (jsTrim g1) (jsOr ⟨splitFirst '@' raw.data⟩ dflt), jsOr (jsTrim g2) raw)
  | none =>
      (jsOr (jsTrim raw) (jsOr ⟨splitFirst '@' raw.data⟩ dflt), jsOr (jsTrim raw) raw)

/-! ## Data model (`types/email.ts`, `lib/api.ts`) -/

structure EmailDraft where
  draft_id : String
  content : String
  created_at : String
  status : String
  response_type : String
deriving DecidableEq, Repr

/-- Sender identity; the optional profile-enrichment fields of the TS type
(organization, bio, social links) are never read by the sync engine and are
omitted. -/
structure EmailSender where
  name : String
  email : String
  avatar : Option String
deriving DecidableEq, Repr

structure EmailAttachment where
  name : String
  size : String
  type : String
  url : String
deriving DecidableEq, Repr

inductive EmailCategory where
  | work
  | personal
  | social
  | updates
  | promotions
deriving DecidableEq, Repr

/-- The canonical client `Email` entity.  `date` is the ISO timestamp string;
`snoozeUntil` (a JS `Date`) is modelled as a numeric timestamp. -/
structure Email where
  id : String
  subject : String
  sender : EmailSender
  recipients : List EmailSender
  content : String
  date : String
  read : Bool
  flagged : Bool
  snoozed : Bool
  snoozeUntil : Option Nat
  archived : Bool
  deleted : Bool
  attachments : Option (List EmailAttachment)
  labels : List String
  account : String
  categories : List EmailCategory
  drafts : List EmailDraft
deriving DecidableEq, Repr

/-- Wire-format mail record (`ApiEmail` in `lib/api.ts`). -/
structure ApiEmail where
  id : String
  threadId : String
  subject : String
  sender : String
  recipient : String
  body : String
  snippet : String
  timestamp : String
  labels : List String
  is_read : Bool
  is_important : Bool
  drafts : Option (List EmailDraft)
deriving DecidableEq, Repr

/-! ## Entity mapper (`email-utils.ts`) -/

/-- `determineCategories`: label hints first (work, social, promotions, in
that push order), then the sender-domain hint, defaulting to `personal`. -/
def determineCategories (a : ApiEmail) : List EmailCategory :=
  let labels := a.labels.map jsToLower
  let cs :=
    (if labels.contains "important" || labels.contains "starred" then
      [EmailCategory.work] else [])
    ++ (if labels.contains "social" || labels.contains "updates" then
      [EmailCategory.social] else [])
    ++ (if labels.contains "promotions" || labels.contains "category_promotions" then
      [EmailCategory.promotions] else [])
    ++ (match splitSecond '@' a.sender.data with
        | some d0 =>
          let d := d0.map Char.toLower
          if containsSub d "company".data || containsSub d "corp".data
              || containsSub d "business".data then [EmailCategory.work]
          else if containsSub d "gmail".data || containsSub d "yahoo".data
              || containsSub d "hotmail".data then [EmailCategory.personal]
          else []
        | none => [])
  if cs = [] then [EmailCategory.personal] else cs

/-- `name.charAt(0).toUpperCase()` for the placeholder avatar URL. -/
def upperFirstChar (s : String) : String :=
  match s.data with
  | [] => ""
  | c :: _ => ⟨[c.toUpper]⟩

/-- `transformApiEmailToEmail`: maps a wire record to the client entity.
`snoozeUntil` and `attachments` are absent from the returned object literal
(modelled `none`), which matters for the `{ ...cached, ...detail }` merge. -/
def transformApiEmailToEmail (a : ApiEmail) : Email :=
  let sn := parseNameAddr a.sender "Unknown"
  let rc := parseNameAddr a.recipient "You"
  { id := a.id
    subject := jsOr a.subject "No Subject"
    sender := { name := sn.1, email := sn.2,
                avatar := some ("/placeholder.svg?height=40&width=40&text="
                  ++ upperFirstChar sn.1) }
    recipients := [{ name := rc.1, email := rc.2, avatar := none }]
    content := jsOr a.body (jsOr a.snippet "")
    date := a.timestamp
    read := a.is_read
    flagged := a.is_important
    snoozed := false
    snoozeUntil := none
    archived := false
    deleted := false
    attachments := none
    labels := a.labels
    account := "primary"
    categories := determineCategories a
    drafts := a.drafts.getD [] }

/-! ## Folder view engine (`email-client.tsx`, `filteredEmails`) -/

/-- A record of the backend drafts list (`/api/drafts` returns untyped
records; the view reads `draft_id`, `id`, `subject`, `content`,
`created_at`, any of which may be absent). -/
structure DraftRec where
  draft_id : Option String
  id : Option String
  subject : Option String
  content : Option String
  created_at : Option String
deriving DecidableEq, Repr

/-- JS `a || b` where `a` may be `undefined`. -/
def jsOrOpt (a : Option String) (b : String) : String :=
  match a with
  | some s => jsOr s b
  | none => b

/-- The synthetic pseudo-Email the drafts folder view builds from a draft
record (`drafts.map(...)` in `filteredEmails`); `now` stands for
`new Date().toISOString()`.  The `draft_id || draft.id` fallback chain is
collapsed to the empty string when both are absent. -/
def draftToEmail (now : String) (d : DraftRec) : Email :=
  { id := jsOrOpt d.draft_id (jsOrOpt d.id "")
    subject := jsOrOpt d.subject "Draft Response"
    sender := { name := "AI Assistant", email := "ai@assistant.com", avatar := none }
    recipients := []
    content := jsOrOpt d.content "No content available"
    date := jsOrOpt d.created_at now
    read := true
    flagged := false
    snoozed := false
    snoozeUntil := none
    archived := false
    deleted := false
    attachments := some []
    labels := ["draft"]
    account := "drafts"
    categories := []
    drafts := [] }

/-- The per-email folder predicate of `filteredEmails` (non-drafts branch),
with the source's check order: deleted, snoozed, archived, then the folder
cases, with any other folder name treated as an account identifier. -/
def folderPred (selectedFolder : String) (e : Email) : Bool :=
  if e.deleted then false
  else if e.snoozed then selectedFolder == "snoozed"
  else if e.archived then selectedFolder == "archived"
  else if selectedFolder == "unified" then !e.archived && !e.snoozed
  else if selectedFolder == "unread" then !e.read && !e.archived && !e.snoozed
  else if selectedFolder == "flagged" then e.flagged && !e.archived && !e.snoozed
  else e.account == selectedFolder && !e.archived && !e.snoozed

/-- `filteredEmails`: the drafts folder bypasses the Email cache and lists
synthetic pseudo-Emails; every other folder filters the cache. -/
def filteredEmailsView (selectedFolder : String) (now : String)
    (drafts : List DraftRec) (emails : List Email) : List Email :=
  if selectedFolder == "drafts" then drafts.map (draftToEmail now)
  else emails.filter (folderPred selectedFolder)

/-! ## List search and sort (`email-list.tsx`) -/

inductive SortKey where
  | date
  | sender
deriving DecidableEq, Repr

inductive SortDir where
  | asc
  | desc
deriving DecidableEq, Repr

structure SortState where
  sortBy : SortKey
  sortOrder : SortDir
deriving DecidableEq, Repr

/-- `handleSortChange`: same key toggles the direction, a different key is
selected with direction reset to descending. -/
def handleSortChange (newSortBy : SortKey) (s : SortState) : SortState :=
  if s.sortBy = newSortBy then
    { s with sortOrder := if s.sortOrder = SortDir.desc then SortDir.asc else SortDir.desc }
  else
    { sortBy := newSortBy, sortOrder := SortDir.desc }

/-- The search filter: case-insensitive substring match over subject, sender
display name and content. -/
def searchPred (q : String) (e : Email) : Bool :=
  containsSub (jsToLower e.subject).data (jsToLower q).data
    || containsSub (jsToLower e.sender.name).data (jsToLower q).data
    || containsSub (jsToLower e.content).data (jsToLower q).data

/-- The JS sort comparator.  `dv` models `new Date(s).getTime()` and `nc`
models `String.prototype.localeCompare`, both environment primitives. -/
def sortCmp (dv : String → Int) (nc : String → String → Int)
    (st : SortState) (a b : Email) : Int :=
  match st.sortBy with
  | SortKey.date =>
    match st.sortOrder with
    | SortDir.desc => dv b.date - dv a.date
    | SortDir.asc => dv a.date - dv b.date
  | SortKey.sender =>
    match st.sortOrder with
    | SortDir.desc => nc (jsToLower b.sender.name) (jsToLower a.sender.name)
    | SortDir.asc => nc (jsToLower a.sender.name) (jsToLower b.sender.name)

/-- `sortedEmails`: the search-filtered list sorted by the comparator
(`Array.prototype.sort` is stable in the target runtime; modelled by a
stable merge sort keeping `a` before `b` when the comparator is ≤ 0). -/
def emailListView (dv : String → Int) (nc : String → String → Int)
    (st : SortState) (q : String) (emails : List Email) : List Email :=
  (emails.filter (searchPred q)).mergeSort
    (fun a b => decide (sortCmp dv nc st a b ≤ 0))

/-! ## Reconciliation controller state and mutations (`email-client.tsx`,
`use-email-api.ts`) -/

/-- The client state the controller mutates: the email cache, the active
selection, and the batch-selection set for agent drafts. -/
structure ClientState where
  emails : List Email
  selectedEmail : Option Email
  selectedEmails : List Email
deriving DecidableEq, Repr

/-- `handleSnoozeEmail`: flags the email snoozed with its snooze date.  The
active selection is left untouched (the handler has no
`setSelectedEmail(null)` branch). -/
def handleSnoozeEmail (emailId : String) (snoozeUntil : Nat) (s : ClientState) : ClientState :=
  { s with emails := s.emails.map (fun e =>
      if e.id = emailId then { e with snoozed := true, snoozeUntil := some snoozeUntil } else e) }

/-- `handleArchiveEmail`: flags the email archived and clears the active
selection when it is the mutated email. -/
def handleArchiveEmail (emailId : String) (s : ClientState) : ClientState :=
  { s with
    emails := s.emails.map (fun e => if e.id = emailId then { e with archived := true } else e)
    selectedEmail :=
      match s.selectedEmail with
      | some se => if se.id = emailId then none else some se
      | none => none }

/-- `handleDeleteEmail`: flags the email deleted and clears the active
selection when it is the mutated email. -/
def handleDeleteEmail (emailId : String) (s : ClientState) : ClientState :=
  { s with
    emails := s.emails.map (fun e => if e.id = emailId then { e with deleted := true } else e)
    selectedEmail :=
      match s.selectedEmail with
      | some se => if se.id = emailId then none else some se
      | none => none }

/-- The success continuation of `fetchEmails` (`use-email-api.ts`): the
resolved batch is mapped through the entity mapper and `setEmails` replaces
the cache wholesale — the previous cache does not occur in the update. -/
def fetchEmailsApply (batch : List ApiEmail) (s : ClientState) : ClientState :=
  { s with emails := batch.map transformApiEmailToEmail }

/-- The object-spread merge `{ ...e, ...fullEmail }` used by
`handleEmailSelect`: every key of the mapper's literal overwrites the cached
copy; `snoozeUntil` and `attachments` are the only `Email` keys the mapper
does not produce, so the cached values survive. -/
def mergeDetail (full : Email) (e : Email) : Email :=
  { full with snoozeUntil := e.snoozeUntil, attachments := e.attachments }

/-- `handleEmailSelect` when `fetchEmailDetails` resolves with `full`: the
email is selected and optimistically marked read, then the detail entity is
spread over the cache entry with the matching id and becomes the selection. -/
def handleEmailSelectSuccess (email : Email) (full : Email) (s : ClientState) : ClientState :=
  let marked := s.emails.map (fun e => if e.id = email.id then { e with read := true } else e)
  { s with
    selectedEmail := some full
    emails := marked.map (fun e => if e.id = email.id then mergeDetail full e else e) }

/-! ## Agent draft generation and agent fetch (`use-email-api.ts`) -/

/-- One entry of the `AgentDraftRequest` payload. -/
structure AgentDraftEmailProj where
  id : String
  threadId : String
  snippet : String
  sender : String
deriving DecidableEq, Repr

/-- The per-email projection `createAgentDraft` sends: the email id doubles
as the thread reference, and the snippet is
`email.content.substring(0, 150) + '...'`. -/
def agentDraftProjection (e : Email) : AgentDraftEmailProj :=
  { id := e.id
    threadId := e.id
    snippet := ⟨e.content.data.take 150⟩ ++ "..."
    sender := e.sender.email }

/-- The full request body of `createAgentDraft`. -/
def agentDraftRequestOf (emails : List Email) : List AgentDraftEmailProj :=
  emails.map agentDraftProjection

/-- The backend's answer to `POST /api/emails/fetch`, as observed by
`fetchEmailsWithAgent`: either a decoded response with its `success` flag, or
a transport failure already caught by the hook. -/
inductive AgentFetchResponse where
  | ok (success : Bool) (message : String) (newEmailsCount : Nat) (totalChecked : Nat)
  | failure (errMsg : String)
deriving DecidableEq, Repr

/-- The externally visible effects of one `fetchEmailsWithAgent` run. -/
structure AgentFetchEffects where
  returned : Bool
  refetchedFolder : Option String
  errorSet : Bool
deriving DecidableEq, Repr

/-- `fetchEmailsWithAgent`: only the `response.success` branch reaches the
`await fetchEmails()` refetch, which uses the hook's default folder
`'unified'`; a false `success` flag returns without refetching, and the
catch branch records the error and returns without refetching. -/
def fetchEmailsWithAgentRun : AgentFetchResponse → AgentFetchEffects
  | AgentFetchResponse.ok true _ _ _ =>
      { returned := true, refetchedFolder := some "unified", errorSet := false }
  | AgentFetchResponse.ok false _ _ _ =>
      { returned := false, refetchedFolder := none, errorSet := false }
  | AgentFetchResponse.failure _ =>
      { returned := false, refetchedFolder := none, errorSet := true }

/-! ## Enrichment poller (`sender-profile`, inside
`agent-draft-generator.tsx`'s file)

After the research request answers "initiated", `handleFetchUserDetails`
starts `setInterval(poll, 3000)` and a `setTimeout(clearInterval, 30000)`.
Time is modelled in seconds from the interval start; the interval fires at
3, 6, ..., 30 and is cleared by the first successful poll or by the
30-second timeout.  The `useEffect` that starts the poll registers no
cleanup, so closing the profile view (`closedAt`) does not clear the
interval: `closedAt` does not occur in the body below, mirroring the
source. -/

/-- Whether some poll strictly before `t` already resolved and cleared the
interval (`backendResolved u` = the lookup issued at time `u` returns the
profile). -/
def resolvedBefore (backendResolved : Nat → Bool) (t : Nat) : Bool :=
  (List.range t).any (fun u => decide (0 < u) && decide (u % 3 = 0) && backendResolved u)

/-- Whether the poller issues an "existing details" lookup at time `t`. -/
def pollerLookupAt (_closedAt : Option Nat) (backendResolved : Nat → Bool) (t : Nat) : Bool :=
  decide (0 < t) && decide (t % 3 = 0) && decide (t ≤ 30)
    && !resolvedBefore backendResolved t

/-- `agentFetchSuccess r` holds exactly when the backend answered 2xx with
`success: true`. -/
def agentFetchSuccess : AgentFetchResponse → Bool
  | AgentFetchResponse.ok true _ _ _ => true
  | AgentFetchResponse.ok false _ _ _ => false
  | AgentFetchResponse.failure _ => false

/-! ## Concrete sample records (used by the concrete evaluations below) -/

def sampleApi : ApiEmail :=
  { id := "42", threadId := "t42", subject := "Hello", sender := "Ann Lee <ann@corp.com>"
    recipient := "bob@gmail.com", body := "body text", snippet := "snip"
    timestamp := "2024-01-02T03:04:05Z", labels := ["important"]
    is_read := false, is_important := true, drafts := none }

def draftA : EmailDraft :=
  { draft_id := "d1", content := "reply one", created_at := "2024-01-03"
    status := "saved", response_type := "reply" }

def draftB : EmailDraft :=
  { draft_id := "d2", content := "reply two", created_at := "2024-01-04"
    status := "saved", response_type := "reply" }

/-- A detail response for id 42 carrying two drafts. -/
def sampleApiDetail : ApiEmail := { sampleApi with drafts := some [draftA, draftB] }

/-- A cached entity with id 42 and no drafts. -/
def plainEmail : Email :=
  { id := "42", subject := "Hello"
    sender := { name := "Ann", email := "ann@corp.com", avatar := none }
    recipients := [], content := "body text", date := "2024-01-02T03:04:05Z"
    read := false, flagged := false, snoozed := false, snoozeUntil := none
    archived := false, deleted := false, attachments := none, labels := []
    account := "primary", categories := [], drafts := [] }

/-- A client state whose active selection is the cached id-42 entity. -/
def sampleState : ClientState :=
  { emails := [plainEmail], selectedEmail := some plainEmail, selectedEmails := [] }

/-! ## Theorems -/

/-- C1: a locally archived email is restored as non-archived by the wholesale
cache replace of a subsequent folder fetch whose response includes its id;
the replace likewise discards every locally-set snoozed and deleted flag. -/
theorem archive_then_fetchFolder_restores_flags
    (s : ClientState) (emailId : String) (batch : List ApiEmail) (a : ApiEmail)
    (ha : a ∈ batch) (hid : a.id = emailId) :
    (fetchEmailsApply batch (handleArchiveEmail emailId s)).emails
        = batch.map transformApiEmailToEmail
    ∧ (∀ e ∈ (fetchEmailsApply batch (handleArchiveEmail emailId s)).emails,
        e.archived = false ∧ e.snoozed = false ∧ e.deleted = false)
    ∧ ∃ e ∈ (fetchEmailsApply batch (handleArchiveEmail emailId s)).emails,
        e.id = emailId ∧ e.archived = false := by
  refine ⟨rfl, ?_, ?_⟩
  · intro e he
    obtain ⟨x, _, rfl⟩ := List.mem_map.mp he
    exact ⟨rfl, rfl, rfl⟩
  · exact ⟨transformApiEmailToEmail a, List.mem_map_of_mem _ ha, hid, rfl⟩

/-- C1 witness: the archived id-42 entity reappears non-archived after the
refetch resolves with a batch containing id 42. -/
theorem archive_then_fetchFolder_restores_flags_app :
    ∃ e ∈ (fetchEmailsApply [sampleApi] (handleArchiveEmail "42" sampleState)).emails,
      e.id = "42" ∧ e.archived = false :=
  (archive_then_fetchFolder_restores_flags sampleState "42" [sampleApi] sampleApi
    (List.mem_singleton.mpr rfl) rfl).2.2

/-- C10: the mapper fixes snoozed, archived, deleted to false and the account
to "primary"; hence a just-fetched cache has no archived, snoozed or deleted
entry, and any account-named folder other than "primary" derives an empty
view. -/
theorem mapper_defaults_and_account_views
    (a : ApiEmail) (f now : String) (drafts : List DraftRec)
    (batch : List ApiEmail) (s : ClientState)
    (hf : f ∉ (["drafts", "snoozed", "archived", "unified", "unread", "flagged"] : List String))
    (hp : f ≠ "primary") :
    ((transformApiEmailToEmail a).snoozed = false
      ∧ (transformApiEmailToEmail a).archived = false
      ∧ (transformApiEmailToEmail a).deleted = false
      ∧ (transformApiEmailToEmail a).account = "primary")
    ∧ (∀ e ∈ (fetchEmailsApply batch s).emails,
        e.archived = false ∧ e.snoozed = false ∧ e.deleted = false)
    ∧ filteredEmailsView f now drafts (fetchEmailsApply batch s).emails = [] := by
  simp only [List.mem_cons, List.not_mem_nil, or_false, not_or] at hf
  obtain ⟨h1, h2, h3, h4, h5, h6⟩ := hf
  refine ⟨⟨rfl, rfl, rfl, rfl⟩, ?_, ?_⟩
  · intro e he
    obtain ⟨x, _, rfl⟩ := List.mem_map.mp he
    exact ⟨rfl, rfl, rfl⟩
  · unfold filteredEmailsView
    rw [if_neg (by simp [h1])]
    rw [List.filter_eq_nil_iff]
    intro e he
    obtain ⟨x, _, rfl⟩ := List.mem_map.mp he
    have hacc : (transformApiEmailToEmail x).account = "primary" := rfl
    have hdel : (transformApiEmailToEmail x).deleted = false := rfl
    have hsn : (transformApiEmailToEmail x).snoozed = false := rfl
    have harch : (transformApiEmailToEmail x).archived = false := rfl
    simp [folderPred, hacc, hdel, hsn, harch, h2, h3, h4, h5, h6, Ne.symm hp]

/-- C10 witness: at folder "work" (an account name different from "primary")
the freshly fetched view is empty, and the fresh cache carries no local
flags. -/
theorem mapper_defaults_and_account_views_app :
    filteredEmailsView "work" "2024-01-05" [] (fetchEmailsApply [sampleApi] sampleState).emails
      = [] :=
  (mapper_defaults_and_account_views sampleApi "work" "2024-01-05" [] [sampleApi] sampleState
    (by decide) (by decide)).2.2

/-- C3: no folder view — including the synthetic drafts view — ever contains
an email whose deleted flag is set, for every cache contents, search text and
sort criteria. -/
theorem deriveView_never_shows_deleted
    (folder now q : String) (drafts : List DraftRec) (emails : List Email)
    (st : SortState) (dv : String → Int) (nc : String → String → Int)
    (e : Email)
    (he : e ∈ emailListView dv nc st q (filteredEmailsView folder now drafts emails)) :
    e.deleted = false := by
  have h1 : e ∈ (filteredEmailsView folder now drafts emails).filter (searchPred q) :=
    (List.mergeSort_perm _ _).mem_iff.mp he
  have h2 : e ∈ filteredEmailsView folder now drafts emails := (List.mem_filter.mp h1).1
  unfold filteredEmailsView at h2
  by_cases hf : (folder == "drafts") = true
  · rw [if_pos hf] at h2
    obtain ⟨d, _, rfl⟩ := List.mem_map.mp h2
    rfl
  · rw [if_neg hf] at h2
    have hp := (List.mem_filter.mp h2).2
    cases hd : e.deleted
    · rfl
    · rw [folderPred, hd] at hp
      simp at hp

/-- C3 witness: a concrete non-deleted email survives the unified view while
the concrete pipeline runs end to end. -/
theorem deriveView_never_shows_deleted_app :
    plainEmail.deleted = false :=
  deriveView_never_shows_deleted "unified" "2024-01-05" "" [] [plainEmail]
    { sortBy := SortKey.date, sortOrder := SortDir.desc } (fun _ => 0) (fun _ _ => 0)
    plainEmail (by
      unfold emailListView
      have h : (filteredEmailsView "unified" "2024-01-05" [] [plainEmail]).filter (searchPred "")
          = [plainEmail] := by decide
      rw [h, List.mergeSort_singleton]
      exact List.mem_singleton.mpr rfl)

/-- C4: when the detail fetch for a cached id resolves, the cache entry
becomes the mapped detail entity — its draft list is exactly the detail
response's (no union with the old list), and every key the mapper produces
overwrites the cached copy, with only the keys absent from the mapper's
literal (snoozeUntil, attachments) surviving from the cache. -/
theorem fetchDetail_merge_replaces_drafts
    (s : ClientState) (e : Email) (a : ApiEmail) (ds : List EmailDraft)
    (he : e ∈ s.emails) (hds : a.drafts = some ds) :
    mergeDetail (transformApiEmailToEmail a) { e with read := true }
        ∈ (handleEmailSelectSuccess e (transformApiEmailToEmail a) s).emails
    ∧ (mergeDetail (transformApiEmailToEmail a) { e with read := true }).drafts = ds
    ∧ mergeDetail (transformApiEmailToEmail a) { e with read := true }
        = { transformApiEmailToEmail a with
            snoozeUntil := e.snoozeUntil, attachments := e.attachments } := by
  refine ⟨?_, ?_, rfl⟩
  · unfold handleEmailSelectSuccess
    have h1 : ({ e with read := true } : Email)
        ∈ s.emails.map (fun x => if x.id = e.id then { x with read := true } else x) := by
      have := List.mem_map_of_mem (fun x => if x.id = e.id then { x with read := true } else x) he
      simpa using this
    have h2 := List.mem_map_of_mem
      (fun x => if x.id = e.id then mergeDetail (transformApiEmailToEmail a) x else x) h1
    simpa using h2
  · show (transformApiEmailToEmail a).drafts = ds
    unfold transformApiEmailToEmail
    simp [hds]

/-- C4 witness: the cached id-42 entity with no drafts ends up with exactly
the two drafts of the detail response. -/
theorem fetchDetail_merge_replaces_drafts_app :
    (mergeDetail (transformApiEmailToEmail sampleApiDetail) { plainEmail with read := true }).drafts
      = [draftA, draftB] :=
  (fetchDetail_merge_replaces_drafts sampleState plainEmail sampleApiDetail [draftA, draftB]
    (List.mem_singleton.mpr rfl) rfl).2.1

/-- C5 counterexample: snoozing the active selection leaves the selection in
place — the snooze handler, unlike archive and delete, has no
clear-selection branch. -/
theorem snooze_keeps_selection_cex :
    (handleSnoozeEmail "42" 9 sampleState).selectedEmail ≠ none := by decide

/-- C5 (amended): archive and delete are local map-updates of the cache that
clear the active selection when it is the mutated email; snooze is the same
kind of local map-update but leaves the active selection unchanged. -/
theorem local_mutations_selection
    (s : ClientState) (se : Email) (emailId : String) (t : Nat)
    (hsel : s.selectedEmail = some se) (hid : se.id = emailId) :
    (handleArchiveEmail emailId s).selectedEmail = none
    ∧ (handleDeleteEmail emailId s).selectedEmail = none
    ∧ (handleSnoozeEmail emailId t s).selectedEmail = some se
    ∧ (handleSnoozeEmail emailId t s).emails
        = s.emails.map (fun e =>
            if e.id = emailId then { e with snoozed := true, snoozeUntil := some t } else e) := by
  refine ⟨?_, ?_, ?_, rfl⟩
  · unfold handleArchiveEmail
    rw [hsel]
    simp [hid]
  · unfold handleDeleteEmail
    rw [hsel]
    simp [hid]
  · unfold handleSnoozeEmail
    exact hsel

/-- C5 witness: with the id-42 entity selected, archive clears the selection
while snooze retains it. -/
theorem local_mutations_selection_app :
    (handleArchiveEmail "42" sampleState).selectedEmail = none
    ∧ (handleDeleteEmail "42" sampleState).selectedEmail = none
    ∧ (handleSnoozeEmail "42" 9 sampleState).selectedEmail = some plainEmail :=
  ⟨(local_mutations_selection sampleState plainEmail "42" 9 rfl rfl).1,
   (local_mutations_selection sampleState plainEmail "42" 9 rfl rfl).2.1,
   (local_mutations_selection sampleState plainEmail "42" 9 rfl rfl).2.2.1⟩

/-- C6 counterexample: on the caught transport-failure path,
`fetchEmailsWithAgent` performs no refetch at all — the claim's
"unconditionally refetches ... on the already-caught failure path" is false. -/
theorem agent_fetch_failure_no_refetch_cex :
    (fetchEmailsWithAgentRun (AgentFetchResponse.failure "Network error")).refetchedFolder
      = none := rfl

/-- C6 (amended): the ingestion pass is followed by a refetch only when the
backend reports success, and that refetch targets the hook's default
"unified" folder; a success=false response and the caught failure path both
return without refetching. -/
theorem agent_fetch_refetch_iff_success (r : AgentFetchResponse) :
    (fetchEmailsWithAgentRun r).refetchedFolder
      = (if agentFetchSuccess r then some "unified" else none) := by
  cases r with
  | ok success m n t => cases success <;> rfl
  | failure m => rfl

/-- C7: evaluation at the failing input — the profile view is closed at time
5, the backend never resolves, yet the poller still issues the lookup due at
time 6: the interval's lifetime is not tied to view visibility (the effect
registers no cleanup), so closing the view does not stop the lookups. -/
theorem poller_lookup_after_close :
    pollerLookupAt (some 5) (fun _ => false) 6 = true := by decide

/-- The deadline half of C7 does hold: whatever the close time and backend
behaviour, no lookup is issued after the 30-unit deadline has elapsed. -/
theorem poller_deadline_stops (closedAt : Option Nat) (backend : Nat → Bool) (t : Nat)
    (ht : 30 < t) :
    pollerLookupAt closedAt backend t = false := by
  unfold pollerLookupAt
  have : decide (t ≤ 30) = false := by
    simp only [decide_eq_false_iff_not]
    omega
  simp [this]

/-- Closed instance of the deadline fact. -/
theorem poller_deadline_stops_app :
    pollerLookupAt (some 5) (fun _ => false) 33 = false :=
  poller_deadline_stops (some 5) (fun _ => false) 33 (by omega)

/-- C8: re-selecting the currently active sort key flips the direction and a
second re-selection flips it back, so the sort state — and with it the
displayed list — returns to its original order; selecting a different key
resets the direction to descending. -/
theorem sort_toggle_involution
    (st : SortState) (k : SortKey) (h : st.sortBy = k)
    (dv : String → Int) (nc : String → String → Int) (q : String) (emails : List Email) :
    handleSortChange k (handleSortChange k st) = st
    ∧ emailListView dv nc (handleSortChange k (handleSortChange k st)) q emails
        = emailListView dv nc st q emails
    ∧ ∀ (st' : SortState) (k' : SortKey), st'.sortBy ≠ k' →
        handleSortChange k' st' = { sortBy := k', sortOrder := SortDir.desc } := by
  have h1 : handleSortChange k (handleSortChange k st) = st := by
    obtain ⟨sb, so⟩ := st
    cases h
    cases so <;> simp [handleSortChange]
  refine ⟨h1, by rw [h1], ?_⟩
  intro st' k' hne
  unfold handleSortChange
  rw [if_neg hne]

/-- C8 witness: toggling the date key twice from an ascending date sort
restores the original sort state. -/
theorem sort_toggle_involution_app :
    handleSortChange SortKey.date (handleSortChange SortKey.date
        { sortBy := SortKey.date, sortOrder := SortDir.asc })
      = { sortBy := SortKey.date, sortOrder := SortDir.asc } :=
  (sort_toggle_involution { sortBy := SortKey.date, sortOrder := SortDir.asc } SortKey.date rfl
    (fun _ => 0) (fun _ _ => 0) "" []).1

set_option maxRecDepth 4000 in
/-- C9 counterexample: for a selected email whose content has 150 characters,
the snippet sent by `createAgentDraft` is 153 characters long (the code
appends "..." after the 150-character cut), refuting the ≤ 150 bound. -/
theorem agent_snippet_exceeds_150_cex :
    150 < (agentDraftProjection
        { plainEmail with content := ⟨List.replicate 150 'a'⟩ }).snippet.length := by
  decide

/-- C9 (amended): each projected entry carries the email id, the same id as
thread reference, the sender address, and the first 150 characters of the
content with "..." appended — a snippet of `min length 150 + 3` characters,
hence at most 153 (not 150). -/
theorem agent_projection_shape (e : Email) :
    (agentDraftProjection e).id = e.id
    ∧ (agentDraftProjection e).threadId = e.id
    ∧ (agentDraftProjection e).sender = e.sender.email
    ∧ (agentDraftProjection e).snippet = ⟨e.content.data.take 150⟩ ++ "..."
    ∧ (agentDraftProjection e).snippet.length = min 150 e.content.length + 3
    ∧ (agentDraftProjection e).snippet.length ≤ 153 := by
  have hlen : (agentDraftProjection e).snippet.length = min 150 e.content.length + 3 := by
    show (⟨e.content.data.take 150⟩ ++ ("..." : String)).length = min 150 e.content.length + 3
    show (e.content.data.take 150 ++ ("..." : String).data).length = min 150 e.content.length + 3
    rw [List.length_append, List.length_take]
    rfl
  refine ⟨rfl, rfl, rfl, rfl, hlen, ?_⟩
  rw [hlen]
  have := Nat.min_le_left 150 e.content.length
  omega

/-- Helper: `viableLt` fails wherever the scanned character is not `<`. -/
lemma viableLt_eq_false (cs : List Char) (j : Nat) (h : cs.getD j ' ' ≠ '<') :
    viableLt cs j = false := by
  unfold viableLt
  have hb : (cs.getD j ' ' == '<') = false := by
    simp only [beq_eq_false_iff_ne, ne_eq]
    exact h
  rw [hb]
  rfl

/-- Helper: the default-padded read of a list avoiding a character. -/
lemma getD_ne_of_not_mem (cs : List Char) (j : Nat) (c d : Char)
    (h : c ∉ cs) (hd : d ≠ c) : cs.getD j d ≠ c := by
  have : cs.getD j d = (cs.get? j).getD d := rfl
  rw [this]
  cases hx : cs.get? j with
  | none => simpa using fun hc => hd hc
  | some x =>
    have hmem := List.get?_mem hx
    simp only [Option.getD_some]
    intro hc
    exact h (hc ▸ hmem)

/-- Helper: the fuel scan finds nothing when no index is viable. -/
lemma findViableFrom_eq_none (cs : List Char)
    (hall : ∀ j, viableLt cs j = false) :
    ∀ (fuel i : Nat), findViableFrom cs fuel i = none := by
  intro fuel
  induction fuel with
  | zero => intro i; rfl
  | succ n ih =>
    intro i
    unfold findViableFrom
    rw [hall i]
    simpa using ih (i + 1)

/-- Helper: the fuel scan returns the leftmost viable index. -/
lemma findViableFrom_eq_some (cs : List Char) (J : Nat)
    (hJ : viableLt cs J = true) :
    ∀ (fuel i : Nat), i ≤ J → J < i + fuel →
    (∀ j, i ≤ j → j < J → viableLt cs j = false) →
    findViableFrom cs fuel i = some J := by
  intro fuel
  induction fuel with
  | zero => intro i h1 h2; omega
  | succ n ih =>
    intro i h1 h2 hbelow
    unfold findViableFrom
    by_cases hi : i = J
    · subst hi
      simp [hJ]
    · have hfalse : viableLt cs i = false := hbelow i le_rfl (by omega)
      rw [hfalse]
      simpa using ih (i + 1) (by omega) (by omega)
        (fun j hj1 hj2 => hbelow j (by omega) hj2)

/-- Helper: a trailing space is absorbed by the trailing-whitespace strip. -/
lemma stripTrailWs_append_space (l : List Char) :
    stripTrailWs (l ++ [' ']) = stripTrailWs l := by
  unfold stripTrailWs
  rw [List.reverse_append]
  simp [List.dropWhile_cons, jsWs]

/-- Helper: a nonempty string has a nonempty character list. -/
lemma data_ne_nil_of_ne_empty (s : String) (h : s ≠ "") : s.data ≠ [] := by
  intro hd
  apply h
  obtain ⟨d⟩ := s
  subst hd
  rfl

/-- Helper: on a `name <addr>`-shaped string the regex model matches with
group 1 the name part and group 2 the bracketed address. -/
lemma angleSplit_shape (nm addr : String)
    (hnm2 : '<' ∉ nm.data) (hnm3 : stripTrailWs nm.data = nm.data)
    (hnm4 : dotOk nm.data = true)
    (haddr0 : addr ≠ "") (haddr2 : dotOk addr.data = true) :
    angleSplit (nm ++ " <" ++ addr ++ ">") = some (nm, addr) := by
  have haddr_len : 0 < addr.data.length :=
    List.length_pos.mpr (data_ne_nil_of_ne_empty addr haddr0)
  have hdata : (nm ++ " <" ++ addr ++ ">").data
      = ((nm.data ++ [' ', '<']) ++ addr.data) ++ ['>'] := by
    show ((nm.data ++ [' ', '<']) ++ addr.data) ++ ['>']
        = ((nm.data ++ [' ', '<']) ++ addr.data) ++ ['>']
    rfl
  set cs := (nm ++ " <" ++ addr ++ ">").data with hcs
  have hlen : cs.length = nm.data.length + addr.data.length + 3 := by
    rw [hdata]
    simp
    omega
  have hlast : cs.getLast? = some '>' := by
    rw [hdata]
    exact List.getLast?_concat _
  -- the viable index
  set J := nm.data.length + 1 with hJdef
  have harr1 : cs = (nm.data ++ [' ']) ++ ('<' :: (addr.data ++ ['>'])) := by
    rw [hdata]
    simp
  have harr2 : cs = (nm.data ++ [' ', '<']) ++ (addr.data ++ ['>']) := by
    rw [hdata]
    simp
  have hgetJ : cs.getD J ' ' = '<' := by
    rw [harr1]
    have : (nm.data ++ [' ']).length = J := by simp [hJdef]
    rw [← this, List.getD_append_right _ _ _ _ le_rfl]
    simp
  have htakeJ : cs.take J = nm.data ++ [' '] := by
    rw [harr1]
    have : (nm.data ++ [' ']).length = J := by simp [hJdef]
    rw [← this, List.take_left]
  have hdropJ : cs.drop (J + 1) = addr.data ++ ['>'] := by
    rw [harr2]
    have : (nm.data ++ [' ', '<']).length = J + 1 := by simp [hJdef]
    rw [← this, List.drop_left]
  have hgrp2 : (cs.drop (J + 1)).take (cs.length - J - 2) = addr.data := by
    rw [hdropJ]
    have : cs.length - J - 2 = addr.data.length := by
      rw [hlen]
      omega
    rw [this, List.take_left]
  have hJviable : viableLt cs J = true := by
    unfold viableLt
    rw [hgetJ, htakeJ, hgrp2, stripTrailWs_append_space, hnm3, hnm4, haddr2]
    have : J + 3 ≤ cs.length := by
      rw [hlen]
      omega
    simp [this]
  have hbelow : ∀ j, 0 ≤ j → j < J → viableLt cs j = false := by
    intro j _ hj
    apply viableLt_eq_false
    rw [harr1]
    have hjlt : j < (nm.data ++ [' ']).length := by simp [hJdef] at hj ⊢; omega
    rw [List.getD_append _ _ _ _ hjlt]
    apply getD_ne_of_not_mem
    · intro hmem
      rcases List.mem_append.mp hmem with h | h
      · exact hnm2 h
      · simp at h
    · intro h
      exact absurd h (by decide)
  have hfind : findViableFrom cs cs.length 0 = some J := by
    apply findViableFrom_eq_some cs J hJviable cs.length 0 (by omega)
      (by rw [hlen]; omega)
    intro j h1 h2
    exact hbelow j h1 h2
  unfold angleSplit
  rw [← hcs, hlast]
  simp only [beq_self_eq_true, if_true]
  rw [hfind]
  show some (⟨stripTrailWs (List.take J cs)⟩,
      ⟨List.take (cs.length - J - 2) (List.drop (J + 1) cs)⟩) = some (nm, addr)
  rw [htakeJ, hgrp2, stripTrailWs_append_space, hnm3]

/-- Helper: without any `<` in the string the regex model does not match. -/
lemma angleSplit_none_of_no_lt (raw : String) (h : '<' ∉ raw.data) :
    angleSplit raw = none := by
  have hall : ∀ j, viableLt raw.data j = false := by
    intro j
    apply viableLt_eq_false
    exact getD_ne_of_not_mem _ _ _ _ h (by decide)
  unfold angleSplit
  by_cases hl : (raw.data.getLast? == some '>') = true
  · rw [if_pos hl, findViableFrom_eq_none raw.data hall raw.data.length 0]
  · rw [if_neg hl]

/-- C2 counterexample: for the bare address "x@y.com" the mapper's fallback
array puts the whole raw string into the name slot, so `sender.name` is
"x@y.com", not the local part "x". -/
theorem bare_address_local_part_cex :
    (transformApiEmailToEmail { sampleApi with sender := "x@y.com" }).sender.name ≠ "x" := by
  decide

/-- C2 (amended): for an angle-bracket sender `nm <addr>` (nm nonempty,
trim-stable, bracket- and CR/LF-free; addr nonempty and trim-stable) the
mapped entity has `sender.name = nm` and `sender.email = addr`; for a bare
sender string (nonempty, trim-stable, without `<`) both `sender.name` and
`sender.email` are the raw string itself — the split-at-`@` local part is
only a fallback for a name that trims to the empty string. -/
theorem mapper_parses_angle_and_bare_sender
    (nm addr : String) (a : ApiEmail)
    (hnm0 : nm ≠ "") (hnm1 : jsTrim nm = nm)
    (hnm2 : '<' ∉ nm.data) (hnm3 : stripTrailWs nm.data = nm.data)
    (hnm4 : dotOk nm.data = true)
    (haddr0 : addr ≠ "") (haddr1 : jsTrim addr = addr)
    (haddr2 : dotOk addr.data = true)
    (hs : a.sender = nm ++ " <" ++ addr ++ ">")
    (braw : String) (b : ApiEmail)
    (hb0 : braw ≠ "") (hb1 : jsTrim braw = braw) (hb2 : '<' ∉ braw.data)
    (hbs : b.sender = braw) :
    ((transformApiEmailToEmail a).sender.name = nm
      ∧ (transformApiEmailToEmail a).sender.email = addr)
    ∧ ((transformApiEmailToEmail b).sender.name = braw
      ∧ (transformApiEmailToEmail b).sender.email = braw) := by
  have hA : parseNameAddr (nm ++ " <" ++ addr ++ ">") "Unknown" = (nm, addr) := by
    unfold parseNameAddr
    rw [angleSplit_shape nm addr hnm2 hnm3 hnm4 haddr0 haddr2]
    show (jsOr (jsTrim nm) _, jsOr (jsTrim addr) _) = (nm, addr)
    rw [hnm1, haddr1]
    unfold jsOr
    rw [if_neg hnm0, if_neg haddr0]
  have hB : parseNameAddr braw "Unknown" = (braw, braw) := by
    unfold parseNameAddr
    rw [angleSplit_none_of_no_lt braw hb2]
    show (jsOr (jsTrim braw) _, jsOr (jsTrim braw) braw) = (braw, braw)
    rw [hb1]
    unfold jsOr
    rw [if_neg hb0]
    simp
  refine ⟨⟨?_, ?_⟩, ?_, ?_⟩
  · show (parseNameAddr a.sender "Unknown").1 = nm
    rw [hs, hA]
  · show (parseNameAddr a.sender "Unknown").2 = addr
    rw [hs, hA]
  · show (parseNameAddr b.sender "Unknown").1 = braw
    rw [hbs, hB]
  · show (parseNameAddr b.sender "Unknown").2 = braw
    rw [hbs, hB]

/-- C2 witness: the sample sender "Ann Lee <ann@corp.com>" maps to name
"Ann Lee" and address "ann@corp.com", while the bare "x@y.com" maps to name
and address both "x@y.com". -/
theorem mapper_parses_angle_and_bare_sender_app :
    ((transformApiEmailToEmail sampleApi).sender.name = "Ann Lee"
      ∧ (transformApiEmailToEmail sampleApi).sender.email = "ann@corp.com")
    ∧ ((transformApiEmailToEmail { sampleApi with sender := "x@y.com" }).sender.name = "x@y.com"
      ∧ (transformApiEmailToEmail { sampleApi with sender := "x@y.com" }).sender.email
          = "x@y.com") :=
  mapper_parses_angle_and_bare_sender "Ann Lee" "ann@corp.com" sampleApi
    (by decide) (by decide) (by decide) (by decide) (by decide)
    (by decide) (by decide) (by decide) rfl
    "x@y.com" { sampleApi with sender := "x@y.com" }
    (by decide) (by decide) (by decide) rfl
